import Mathlib

/-!
Shallow embedding of the mcp-skill-client control plane (src/client.js).

The CLI is a Node.js program; we embed its pure decision logic directly and
make the ambient effects explicit:
  - the session registry file becomes an association list passed in and out;
  - process liveness (process.kill(pid, 0)) becomes a predicate alive : Nat → Bool;
  - port bindability (isPortAvailable) becomes a predicate bindable : Nat → Bool;
  - spawned processes, delivered signals and allocated ports are recorded in
    the result structures so theorems can speak about them.
-/

namespace McpSkillClient

/-- A registry entry, as written in sessions.json by startDaemon
(src/client.js, setSession call): the spawned pid, the allocated port and the
start timestamp. -/
structure Session where
  pid : Nat
  port : Nat
  startedAt : String
deriving DecidableEq, Repr

/-- The persisted registry: the JSON object in sessions.json, as an
association list from session name to entry (JS object keys keep insertion
order, and property update rewrites in place). -/
def Registry := List (String × Session)
deriving DecidableEq, Repr

instance : Inhabited Registry := ⟨([] : List (String × Session))⟩

/-- Embeds getSession (src/client.js:138): look the name up in the registry. -/
def getSession : Registry → String → Option Session
  | [], _ => none
  | (k, v) :: rest, n => if k = n then some v else getSession rest n

/-- Embeds setSession (src/client.js:143): JS property assignment, replacing
in place when the key exists and appending otherwise. -/
def setSession : Registry → String → Session → Registry
  | [], n, s => [(n, s)]
  | (k, v) :: rest, n, s =>
    if k = n then (n, s) :: rest else (k, v) :: setSession rest n s

/-- Embeds deleteSession (src/client.js:149): JS delete of the property. -/
def deleteSession (reg : Registry) (n : String) : Registry :=
  reg.filter (fun p => !(p.1 = n : Bool))

/-! Port allocation (src/client.js:179-203). -/

/-- Embeds the usedPorts set of findAvailablePort (src/client.js:193): the
ports of ALL registry entries, with no liveness filtering. -/
def usedPorts (reg : Registry) : List Nat :=
  reg.map (fun p => p.2.port)

/-- One candidate port test, as in the loop body of findAvailablePort
(src/client.js:197): not in usedPorts, and bindable on loopback. -/
def goodPort (used : List Nat) (bindable : Nat → Bool) (p : Nat) : Bool :=
  !used.contains p && bindable p

/-- The scanning loop of findAvailablePort, with the remaining number of
candidates made explicit as fuel (the JS loop runs while
port < startPort + 1000). -/
def findPortLoop (used : List Nat) (bindable : Nat → Bool) :
    Nat → Nat → Option Nat
  | 0, _ => none
  | fuel + 1, port =>
    if goodPort used bindable port then some port
    else findPortLoop used bindable fuel (port + 1)

/-- Embeds findAvailablePort (src/client.js:191): scan 1000 ports starting at
startPort (default 8940); none is the thrown "No available port found". -/
def findAvailablePort (bindable : Nat → Bool) (reg : Registry)
    (startPort : Nat) : Option Nat :=
  findPortLoop (usedPorts reg) bindable 1000 startPort

/-- The port allocator as the specification words it: the first port in the
scanned range that is not held by any CURRENTLY-ALIVE session in the registry
and is bindable. This is the spec-side definition used to compare against
findAvailablePort, which filters on all sessions regardless of liveness. -/
def findAvailablePortSpec (alive : Nat → Bool) (bindable : Nat → Bool)
    (reg : Registry) (startPort : Nat) : Option Nat :=
  findPortLoop (usedPorts (reg.filter (fun p => alive p.2.pid))) bindable
    1000 startPort

/-! The daemon supervisor (src/client.js:399-526). -/

/-- What startDaemon reports to the operator (console messages / thrown
error of src/client.js:399-454). -/
inductive StartOutcome
  | alreadyRunning (pid port : Nat)
  | started (pid port : Nat)
  | startFailed (port : Nat)
  | portExhausted
deriving DecidableEq, Repr

/-- Trace of one startDaemon invocation: its report, the registry content
right after the setSession write that follows the spawn (none when no spawn
happened), the final persisted registry, the pids spawned, the pids that were
sent a kill signal, and the port the allocator returned (none when allocation
was skipped or failed). -/
structure StartResult where
  outcome : StartOutcome
  registryAfterSpawn : Option Registry
  registry : Registry
  spawned : List Nat
  killed : List Nat
  allocatedPort : Option Nat
deriving DecidableEq, Repr

/-- The part of startDaemon after the already-running check
(src/client.js:414-453): allocate a port, spawn the daemon (its pid is the
ambient newPid), record the session, wait, poll GET /status once (the
ambient pollOk says whether the poll succeeded) and on failure delete the
just-created entry. No kill is ever issued on this path. -/
def startCore (bindable : Nat → Bool) (newPid : Nat) (pollOk : Bool)
    (now : String) (reg : Registry) (name : String) : StartResult :=
  match findAvailablePort bindable reg 8940 with
  | none => ⟨.portExhausted, none, reg, [], [], none⟩
  | some port =>
    let reg2 := setSession reg name ⟨newPid, port, now⟩
    if pollOk then
      ⟨.started newPid port, some reg2, reg2, [newPid], [], some port⟩
    else
      ⟨.startFailed port, some reg2, deleteSession reg2 name, [newPid], [],
        some port⟩

/-- Embeds startDaemon (src/client.js:399): if the registry has an entry for
the name and its process is alive (process.kill(pid, 0) does not throw),
report already-running and stop; if the entry is stale, delete it first; then
proceed with startCore on the resulting registry. -/
def startDaemon (alive bindable : Nat → Bool) (newPid : Nat) (pollOk : Bool)
    (now : String) (reg : Registry) (name : String) : StartResult :=
  match getSession reg name with
  | some s =>
    if alive s.pid then
      ⟨.alreadyRunning s.pid s.port, none, reg, [], [], none⟩
    else
      startCore bindable newPid pollOk now (deleteSession reg name) name
  | none => startCore bindable newPid pollOk now reg name

/-- What stopDaemon leaves behind (src/client.js:456-472): the final
registry, the pids a SIGTERM was attempted on, and whether not-running was
reported. Every exception site in the source is wrapped in try/catch, so the
embedding is a total function: no error escapes. -/
structure StopResult where
  registry : Registry
  signaled : List Nat
  reportedNotRunning : Bool
deriving DecidableEq, Repr

/-- Embeds stopDaemon (src/client.js:456): absent entry reports not-running
and changes nothing; a present entry gets a SIGTERM attempt on its recorded
pid (a dead process makes the kill throw, which is caught and only logged)
and the entry is deleted unconditionally. -/
def stopDaemon (reg : Registry) (name : String) : StopResult :=
  match getSession reg name with
  | none => ⟨reg, [], true⟩
  | some s => ⟨deleteSession reg name, [s.pid], false⟩

/-- What statusDaemon prints (src/client.js:474-500): the three operator
visible states. -/
inductive StatusOutcome
  | notRunning
  | notResponding (pid : Nat)
  | running (pid port : Nat)
deriving DecidableEq, Repr

/-- Embeds statusDaemon (src/client.js:474): absent entry reports
not-running; otherwise probe liveness with process.kill(pid, 0) and issue
GET /status (the ambient httpOk says whether that request succeeded); any
throw in the try block lands in the catch, which prints not-responding. The
registry is returned unchanged in every path: statusDaemon never writes. -/
def statusDaemon (alive : Nat → Bool) (httpOk : Bool) (reg : Registry)
    (name : String) : StatusOutcome × Registry :=
  match getSession reg name with
  | none => (.notRunning, reg)
  | some s =>
    if alive s.pid then
      if httpOk then (.running s.pid s.port, reg) else (.notResponding s.pid, reg)
    else (.notResponding s.pid, reg)

/-- Embeds the per-entry loop of listSessions (src/client.js:502): each entry
is printed with a derived status, running when process.kill(pid, 0) succeeds
and dead otherwise; the registry itself is returned unchanged, listSessions
never writes the file. -/
def listSessionsOp (alive : Nat → Bool) (reg : Registry) :
    List (String × Nat × Nat × String) × Registry :=
  (reg.map (fun p =>
    (p.1, p.2.pid, p.2.port, if alive p.2.pid then "running" else "dead")),
   reg)

/-! JSON values and parsing.

The program leans on the platform's JSON.parse / JSON.stringify; the claims
only need its success/failure behaviour and the shape of parsed values, so we
model JSON values as an inductive and give an executable parser that follows
the JSON grammar (numbers are kept as their lexeme, which is all the claims
need). -/

/-- A JSON value. Numbers carry their source lexeme; objects are field lists
in source order. -/
inductive JVal where
  | jnull
  | jbool (b : Bool)
  | jnum (lexeme : String)
  | jstr (s : String)
  | jarr (items : List JVal)
  | jobj (fields : List (String × JVal))
deriving Repr

/-- Opening brace character, written via its code point. -/
def lbraceC : Char := Char.ofNat 123

/-- Closing brace character, written via its code point. -/
def rbraceC : Char := Char.ofNat 125

/-- Drop leading JSON whitespace. -/
def skipWs : List Char → List Char
  | [] => []
  | c :: cs =>
    if c = ' ' ∨ c = '\t' ∨ c = '\n' ∨ c = '\r' then skipWs cs else c :: cs

/-- Value of a hex digit, if the character is one. -/
def hexVal (c : Char) : Option Nat :=
  if c.isDigit then some (c.toNat - 48)
  else if 'a' ≤ c ∧ c ≤ 'f' then some (c.toNat - 87)
  else if 'A' ≤ c ∧ c ≤ 'F' then some (c.toNat - 55)
  else none

/-- Parse the body of a JSON string after the opening quote, handling the
standard escapes; returns the string and the input after the closing
quote. -/
def parseStrBody : List Char → List Char → Option (String × List Char)
  | _, [] => none
  | acc, c :: cs =>
    if c = '"' then some (String.mk acc.reverse, cs)
    else if c = '\\' then
      match cs with
      | [] => none
      | e :: rest =>
        if e = 'n' then parseStrBody ('\n' :: acc) rest
        else if e = 't' then parseStrBody ('\t' :: acc) rest
        else if e = 'r' then parseStrBody ('\r' :: acc) rest
        else if e = 'b' then parseStrBody (Char.ofNat 8 :: acc) rest
        else if e = 'f' then parseStrBody (Char.ofNat 12 :: acc) rest
        else if e = 'u' then
          match rest with
          | h1 :: h2 :: h3 :: h4 :: rest2 =>
            match hexVal h1, hexVal h2, hexVal h3, hexVal h4 with
            | some a, some b, some c2, some d =>
              parseStrBody
                (Char.ofNat (a * 4096 + b * 256 + c2 * 16 + d) :: acc) rest2
            | _, _, _, _ => none
          | _ => none
        else if e = '"' ∨ e = '\\' ∨ e = '/' then parseStrBody (e :: acc) rest
        else none
    else parseStrBody (c :: acc) cs

/-- Split off a maximal run of decimal digits. -/
def spanDigits : List Char → List Char × List Char
  | [] => ([], [])
  | c :: cs =>
    if c.isDigit then
      let (d, r) := spanDigits cs
      (c :: d, r)
    else ([], c :: cs)

/-- Parse a JSON number lexeme (sign, integer part, optional fraction,
optional exponent). -/
def parseNum (s : List Char) : Option (String × List Char) :=
  let (sgn, s1) : List Char × List Char :=
    match s with
    | c :: cs => if c = '-' then (['-'], cs) else ([], c :: cs)
    | [] => ([], [])
  match spanDigits s1 with
  | ([], _) => none
  | (intPart, r1) =>
    let fracRes : Option (List Char × List Char) :=
      match r1 with
      | c :: cs =>
        if c = '.' then
          match spanDigits cs with
          | ([], _) => none
          | (ds, r) => some ('.' :: ds, r)
        else some ([], c :: cs)
      | [] => some ([], [])
    match fracRes with
    | none => none
    | some (fracPart, r2) =>
      let expRes : Option (List Char × List Char) :=
        match r2 with
        | c :: cs =>
          if c = 'e' ∨ c = 'E' then
            let (esgn, cs2) : List Char × List Char :=
              match cs with
              | d :: ds => if d = '+' ∨ d = '-' then ([d], ds) else ([], d :: ds)
              | [] => ([], [])
            match spanDigits cs2 with
            | ([], _) => none
            | (ds, r) => some (c :: (esgn ++ ds), r)
          else some ([], c :: cs)
        | [] => some ([], [])
      match expRes with
      | none => none
      | some (expPart, r3) =>
        some (String.mk (sgn ++ intPart ++ fracPart ++ expPart), r3)

mutual

/-- Parse one JSON value; the fuel bounds nesting depth. -/
def parseVal : Nat → List Char → Option (JVal × List Char)
  | 0, _ => none
  | fuel + 1, s =>
    match skipWs s with
    | [] => none
    | c :: cs =>
      if c = 'n' then
        match cs with
        | 'u' :: 'l' :: 'l' :: rest => some (.jnull, rest)
        | _ => none
      else if c = 't' then
        match cs with
        | 'r' :: 'u' :: 'e' :: rest => some (.jbool true, rest)
        | _ => none
      else if c = 'f' then
        match cs with
        | 'a' :: 'l' :: 's' :: 'e' :: rest => some (.jbool false, rest)
        | _ => none
      else if c = '"' then
        match parseStrBody [] cs with
        | some (str, rest) => some (.jstr str, rest)
        | none => none
      else if c = '[' then parseArrItems fuel cs []
      else if c = lbraceC then parseObjFields fuel cs []
      else if c = '-' ∨ c.isDigit then
        match parseNum (c :: cs) with
        | some (lex, rest) => some (.jnum lex, rest)
        | none => none
      else none

/-- Parse the items of a JSON array after the opening bracket. -/
def parseArrItems : Nat → List Char → List JVal → Option (JVal × List Char)
  | 0, _, _ => none
  | fuel + 1, s, acc =>
    match skipWs s with
    | [] => none
    | c :: cs =>
      if c = ']' ∧ acc.isEmpty then some (.jarr [], cs)
      else
        match parseVal fuel (c :: cs) with
        | none => none
        | some (v, rest) =>
          match skipWs rest with
          | ',' :: r => parseArrItems fuel r (v :: acc)
          | d :: r =>
            if d = ']' then some (.jarr (v :: acc).reverse, r) else none
          | [] => none

/-- Parse the fields of a JSON object after the opening brace. -/
def parseObjFields : Nat → List Char → List (String × JVal) →
    Option (JVal × List Char)
  | 0, _, _ => none
  | fuel + 1, s, acc =>
    match skipWs s with
    | [] => none
    | c :: cs =>
      if c = rbraceC ∧ acc.isEmpty then some (.jobj [], cs)
      else if c = '"' then
        match parseStrBody [] cs with
        | none => none
        | some (key, rest) =>
          match skipWs rest with
          | ':' :: r =>
            match parseVal fuel r with
            | none => none
            | some (v, rest2) =>
              match skipWs rest2 with
              | ',' :: r2 => parseObjFields fuel r2 ((key, v) :: acc)
              | d :: r2 =>
                if d = rbraceC then
                  some (.jobj ((key, v) :: acc).reverse, r2)
                else none
              | [] => none
          | _ => none
      else none

end

/-- Models JSON.parse: parse one value and require only trailing whitespace
after it; none models the thrown SyntaxError. -/
def jsonParse (s : String) : Option JVal :=
  match parseVal (s.length + 1) s.toList with
  | some (v, rest) => if (skipWs rest).isEmpty then some v else none
  | none => none

/-- JS property read on a parsed JSON value: a missing field or a non-object
base reads as undefined, modelled by jnull. -/
def jGet (v : JVal) (key : String) : JVal :=
  match v with
  | .jobj fs =>
    match fs.find? (fun p => p.1 == key) with
    | some p => p.2
    | none => .jnull
  | _ => .jnull

/-! The registry file loader (src/client.js:121-131). -/

/-- Embeds loadSessions (src/client.js:121) at the JSON level: the file state
is none when sessions.json does not exist and some content otherwise; a
missing file or a JSON.parse throw (the catch branch) both yield the empty
object. -/
def loadSessions (file : Option String) : JVal :=
  match file with
  | none => .jobj []
  | some content =>
    match jsonParse content with
    | some v => v
    | none => .jobj []

/-! The control-plane HTTP server inside the daemon
(src/client.js:603-734). -/

/-- Daemon-local connection state plus whether the HTTP listener was bound,
as established by runDaemon before serving requests. -/
structure DaemonState where
  connected : Bool
  lastError : Option String
  listenerBound : Bool
deriving DecidableEq, Repr

/-- Result of the connect attempt in runDaemon's try block
(src/client.js:615-648): success, or any throw (transport connect failure or
unknown transport) with its message. -/
inductive ConnectOutcome
  | success
  | failure (msg : String)
deriving DecidableEq, Repr

/-- Embeds the startup sequence of runDaemon (src/client.js:603-723): the
connect attempt is wrapped in try/catch, the catch only records lastError,
and server.listen runs unconditionally afterwards, so the listener is bound
in every case. -/
def runDaemonInit : ConnectOutcome → DaemonState
  | .success => ⟨true, none, true⟩
  | .failure msg => ⟨false, some msg, true⟩

/-- An HTTP response of the daemon: status code and JSON body (the 204 and
404 answers carry no JSON body; we use jnull and a plain string). -/
structure Response where
  status : Nat
  body : JVal
deriving Repr

/-- The 503 answer shared by /tools and /call when the bridge is not
connected (src/client.js:674-675 and 697-698). -/
def unavailableResp : Response :=
  ⟨503, .jobj [("error", .jstr "Not connected to MCP server")]⟩

/-- The body of the /status answer (src/client.js:667): exactly the four
fields connected, lastError, server, session. -/
def statusBody (st : DaemonState) (serverName sessionName : String) : JVal :=
  .jobj [("connected", .jbool st.connected),
         ("lastError",
           match st.lastError with
           | some e => .jstr e
           | none => .jnull),
         ("server", .jstr serverName),
         ("session", .jstr sessionName)]

/-- JS destructuring of the parsed /call body (src/client.js:694): reading
tool and arguments off a null base throws (modelled as none); any other value
yields the two properties, missing ones as undefined/jnull. -/
def destructureCallBody : JVal → Option (JVal × JVal)
  | .jnull => none
  | v => some (jGet v "tool", jGet v "arguments")

/-- Embeds the request handler of runDaemon (src/client.js:651-719). The
Protocol Bridge is external, so its two operations appear as ambient results:
bridgeTools for client.listTools() and bridgeCall for client.callTool(), an
error value standing for a thrown exception caught by the handler. The /call
parse failure message is a stand-in for the platform SyntaxError text; the
claims only inspect the status code and the field shape. -/
def handleRequest (st : DaemonState) (serverName sessionName : String)
    (bridgeTools : Except String JVal)
    (bridgeCall : JVal → JVal → Except String JVal)
    (method path body : String) : Response :=
  if method = "OPTIONS" then ⟨204, .jnull⟩
  else if path = "/status" then ⟨200, statusBody st serverName sessionName⟩
  else if path = "/tools" ∧ method = "GET" then
    if st.connected then
      match bridgeTools with
      | .ok v => ⟨200, v⟩
      | .error m => ⟨500, .jobj [("error", .jstr m)]⟩
    else unavailableResp
  else if path = "/call" ∧ method = "POST" then
    match jsonParse body with
    | none => ⟨500, .jobj [("error", .jstr "Unexpected token in JSON")]⟩
    | some parsed =>
      match destructureCallBody parsed with
      | none =>
        ⟨500, .jobj [("error", .jstr "Cannot destructure properties of null")]⟩
      | some (tool, toolArgs) =>
        if st.connected then
          match bridgeCall tool toolArgs with
          | .ok r => ⟨200, r⟩
          | .error m => ⟨500, .jobj [("error", .jstr m)]⟩
        else unavailableResp
  else ⟨404, .jstr "Not Found"⟩

/-- The field names of a JSON object, in order; none on a non-object. -/
def jKeys : JVal → Option (List String)
  | .jobj fs => some (fs.map (fun p => p.1))
  | _ => none

/-! The content materializer (src/client.js:246-268). Binary payloads are
base64 strings decoded with Buffer.from(data, 'base64'); we model bytes as
naturals below 256 and give both directions of the standard base64 coding. -/

/-- The base64 alphabet. -/
def b64Alphabet : List Char :=
  "ABCDEFGHIJKLMNOPQRSTUVWXYZabcdefghijklmnopqrstuvwxyz0123456789+/".toList

/-- The base64 digit for a sextet. -/
def b64Char (n : Nat) : Char := b64Alphabet.getD n 'A'

/-- The sextet for a base64 digit; none for padding or foreign characters
(Buffer.from ignores those). -/
def b64Val (c : Char) : Option Nat :=
  let idx := b64Alphabet.indexOf c
  if idx < 64 then some idx else none

/-- Standard base64 encoding of a byte list, three bytes to four digits with
padding on the final group. -/
def b64EncodeChars : List Nat → List Char
  | [] => []
  | [a] => [b64Char (a / 4), b64Char (a % 4 * 16), '=', '=']
  | [a, b] =>
    [b64Char (a / 4), b64Char (a % 4 * 16 + b / 16), b64Char (b % 16 * 4), '=']
  | a :: b :: c :: rest =>
    b64Char (a / 4) :: b64Char (a % 4 * 16 + b / 16) ::
      b64Char (b % 16 * 4 + c / 64) :: b64Char (c % 64) ::
      b64EncodeChars rest

/-- Base64 encoding as a string. -/
def base64Encode (bs : List Nat) : String := String.mk (b64EncodeChars bs)

/-- Reassemble bytes from a sextet stream, as Buffer.from does: a trailing
group of two sextets yields one byte and of three sextets two bytes. -/
def bytesOfSextets : List Nat → List Nat
  | a :: b :: c :: d :: rest =>
    (a * 4 + b / 16) :: (b % 16 * 16 + c / 4) :: (c % 4 * 64 + d) ::
      bytesOfSextets rest
  | [a, b] => [a * 4 + b / 16]
  | [a, b, c] => [a * 4 + b / 16, b % 16 * 16 + c / 4]
  | _ => []

/-- Models Buffer.from(data, 'base64'): keep the alphabet characters
(padding and anything else is skipped) and reassemble bytes. -/
def base64Decode (data : String) : List Nat :=
  bytesOfSextets (data.toList.filterMap b64Val)

/-- Embeds getMimeExtension (src/client.js:246): the fixed MIME table with
the generic bin fallback. -/
def getMimeExtension (mimeType : String) : String :=
  if mimeType = "image/png" then "png"
  else if mimeType = "image/jpeg" then "jpg"
  else if mimeType = "image/gif" then "gif"
  else if mimeType = "image/webp" then "webp"
  else if mimeType = "audio/wav" then "wav"
  else if mimeType = "audio/mp3" then "mp3"
  else if mimeType = "audio/mpeg" then "mp3"
  else if mimeType = "audio/ogg" then "ogg"
  else "bin"

/-- The keys of the MIME table in getMimeExtension. -/
def knownMimeTypes : List String :=
  ["image/png", "image/jpeg", "image/gif", "image/webp",
   "audio/wav", "audio/mp3", "audio/mpeg", "audio/ogg"]

/-- What saveBase64File leaves on disk: the file name, the joined path and
the written bytes. -/
structure SavedFile where
  filename : String
  filepath : String
  bytes : List Nat
deriving DecidableEq, Repr

/-- Embeds saveBase64File (src/client.js:260): resolve the extension from
the MIME type, name the file from the kind and the millisecond
timestamp (Date.now()), join with the output directory, and write the
base64-decoded bytes. -/
def saveBase64File (data : String) (mimeType : String) (outputDir : String)
    (pfx : String) (timestamp : Nat) : SavedFile :=
  let ext := getMimeExtension mimeType
  let filename := pfx ++ "-" ++ toString timestamp ++ "." ++ ext
  { filename := filename
    filepath := outputDir ++ "/" ++ filename
    bytes := base64Decode data }


/-! Helper lemmas about the registry operations. -/

theorem getSession_setSession_self (reg : Registry) (n : String) (s : Session) :
    getSession (setSession reg n s) n = some s := by
  induction reg with
  | nil => simp [setSession, getSession]
  | cons hd tl ih =>
    obtain ⟨k, v⟩ := hd
    by_cases h : k = n
    · simp [setSession, h, getSession]
    · simpa [setSession, h, getSession] using ih

theorem getSession_setSession_ne (reg : Registry) (n m : String) (s : Session)
    (h : m ≠ n) : getSession (setSession reg n s) m = getSession reg m := by
  have hnm : n ≠ m := Ne.symm h
  induction reg with
  | nil => simp [setSession, getSession, hnm]
  | cons hd tl ih =>
    obtain ⟨k, v⟩ := hd
    by_cases hk : k = n
    · subst hk
      simp [setSession, getSession, hnm, Ne.symm hnm]
    · by_cases hm : k = m
      · simp [setSession, hk, getSession, hm, h]
      · simpa [setSession, hk, getSession, hm] using ih

theorem getSession_deleteSession_self (reg : Registry) (n : String) :
    getSession (deleteSession reg n) n = none := by
  induction reg with
  | nil => simp [deleteSession, getSession]
  | cons hd tl ih =>
    obtain ⟨k, v⟩ := hd
    by_cases h : k = n
    · simpa [deleteSession, h, List.filter] using ih
    · simpa [deleteSession, List.filter, h, getSession] using ih

theorem getSession_deleteSession_ne (reg : Registry) (n m : String) (h : m ≠ n) :
    getSession (deleteSession reg n) m = getSession reg m := by
  induction reg with
  | nil => simp [deleteSession, getSession]
  | cons hd tl ih =>
    obtain ⟨k, v⟩ := hd
    by_cases hk : k = n
    · subst hk
      simpa [deleteSession, List.filter, getSession, Ne.symm h] using ih
    · by_cases hm : k = m
      · simp [deleteSession, List.filter, hk, getSession, hm, h]
      · simpa [deleteSession, List.filter, hk, getSession, hm] using ih

/-! Helper lemmas about the port scanning loop. -/

theorem findPortLoop_eq_some (used : List Nat) (bindable : Nat → Bool) :
    ∀ fuel start p,
      findPortLoop used bindable fuel start = some p ↔
        (start ≤ p ∧ p < start + fuel ∧ goodPort used bindable p = true ∧
          ∀ q, start ≤ q → q < p → goodPort used bindable q = false) := by
  intro fuel
  induction fuel with
  | zero =>
    intro start p
    simp only [findPortLoop]
    constructor
    · intro h; cases h
    · rintro ⟨h1, h2, _, _⟩; omega
  | succ n ih =>
    intro start p
    simp only [findPortLoop]
    cases hg : goodPort used bindable start with
    | true =>
      simp only [hg, if_true]
      constructor
      · rintro ⟨rfl⟩
        exact ⟨Nat.le_refl _, by omega, hg, fun q hq1 hq2 => by omega⟩
      · rintro ⟨h1, h2, h3, h4⟩
        by_cases hp : start = p
        · exact congrArg some hp
        · have : goodPort used bindable start = false :=
            h4 start (Nat.le_refl _) (by omega)
          rw [hg] at this; cases this
    | false =>
      simp only [hg, Bool.false_eq_true, if_false]
      rw [ih (start + 1) p]
      constructor
      · rintro ⟨h1, h2, h3, h4⟩
        refine ⟨by omega, by omega, h3, fun q hq1 hq2 => ?_⟩
        by_cases hq : q = start
        · subst hq; exact hg
        · exact h4 q (by omega) hq2
      · rintro ⟨h1, h2, h3, h4⟩
        have hps : start ≠ p := by
          rintro rfl; rw [h3] at hg; cases hg
        exact ⟨by omega, by omega, h3, fun q hq1 hq2 => h4 q (by omega) hq2⟩

theorem findPortLoop_eq_none (used : List Nat) (bindable : Nat → Bool) :
    ∀ fuel start,
      findPortLoop used bindable fuel start = none ↔
        ∀ q, start ≤ q → q < start + fuel → goodPort used bindable q = false := by
  intro fuel
  induction fuel with
  | zero =>
    intro start
    simp only [findPortLoop]
    constructor
    · intro _ q h1 h2; omega
    · intro _; trivial
  | succ n ih =>
    intro start
    simp only [findPortLoop]
    cases hg : goodPort used bindable start with
    | true =>
      simp only [hg, if_true]
      constructor
      · intro h; cases h
      · intro h
        have := h start (Nat.le_refl _) (by omega)
        rw [hg] at this; cases this
    | false =>
      simp only [hg, Bool.false_eq_true, if_false]
      rw [ih (start + 1)]
      constructor
      · intro h q hq1 hq2
        by_cases hq : q = start
        · subst hq; exact hg
        · exact h q (by omega) (by omega)
      · intro h q hq1 hq2
        exact h q (by omega) (by omega)

/-! Helper lemmas about the base64 coding and the MIME table. -/

theorem b64Val_b64Char : ∀ n, n < 64 → b64Val (b64Char n) = some n := by decide

theorem b64Val_pad : b64Val '=' = none := by decide

theorem base64_roundtrip (bs : List Nat) (h : ∀ b ∈ bs, b < 256) :
    bytesOfSextets ((b64EncodeChars bs).filterMap b64Val) = bs := by
  induction bs using b64EncodeChars.induct with
  | case1 => simp [b64EncodeChars, bytesOfSextets]
  | case2 a =>
    have ha : a < 256 := h a (by simp)
    simp only [b64EncodeChars, List.filterMap]
    rw [b64Val_b64Char _ (by omega), b64Val_b64Char _ (by omega)]
    simp [b64Val_pad, bytesOfSextets]
    omega
  | case3 a b =>
    have ha : a < 256 := h a (by simp)
    have hb : b < 256 := h b (by simp)
    simp only [b64EncodeChars, List.filterMap]
    rw [b64Val_b64Char _ (by omega), b64Val_b64Char _ (by omega),
      b64Val_b64Char _ (by omega)]
    simp [b64Val_pad, bytesOfSextets]
    constructor
    · omega
    · omega
  | case4 a b c rest ih =>
    have ha : a < 256 := h a (by simp)
    have hb : b < 256 := h b (by simp)
    have hc : c < 256 := h c (by simp)
    have hrest : ∀ x ∈ rest, x < 256 := fun x hx => h x (by simp [hx])
    simp only [b64EncodeChars, List.filterMap]
    rw [b64Val_b64Char _ (by omega), b64Val_b64Char _ (by omega),
      b64Val_b64Char _ (by omega), b64Val_b64Char _ (by omega)]
    simp only [bytesOfSextets, ih hrest, List.cons.injEq]
    refine ⟨by omega, by omega, by omega, trivial⟩

theorem base64Decode_encode (bs : List Nat) (h : ∀ b ∈ bs, b < 256) :
    base64Decode (base64Encode bs) = bs := by
  simpa [base64Decode, base64Encode] using base64_roundtrip bs h

theorem getMimeExtension_unknown (mt : String) (h : mt ∉ knownMimeTypes) :
    getMimeExtension mt = "bin" := by
  simp [knownMimeTypes] at h
  obtain ⟨h1, h2, h3, h4, h5, h6, h7, h8⟩ := h
  simp [getMimeExtension, h1, h2, h3, h4, h5, h6, h7, h8]

theorem str_append_dot (x : String) (e : String) :
    x ++ "." ++ e = x ++ ("." ++ e) :=
  String.append_assoc x "." e

/-! The claims. -/

/-- Claim C1: start is idempotent for a live session. When the registry maps
the name to an entry whose recorded process is alive, startDaemon reports
already-running and returns: no process is spawned, no port is allocated, and
the registry (pid, port, startedAt) is byte-for-byte unchanged. -/
theorem start_idempotent_live (alive bindable : Nat → Bool) (newPid : Nat)
    (pollOk : Bool) (now : String) (reg : Registry) (name : String)
    (s : Session) (hs : getSession reg name = some s)
    (ha : alive s.pid = true) :
    startDaemon alive bindable newPid pollOk now reg name =
      ⟨.alreadyRunning s.pid s.port, none, reg, [], [], none⟩ := by
  simp [startDaemon, hs, ha]

/-- Witness for C1 at a concrete live registry entry. -/
theorem start_idempotent_live_witness :
    startDaemon (fun _ => true) (fun _ => true) 7 true "t1"
        [("dev", ⟨5, 8940, "t0"⟩)] "dev" =
      ⟨.alreadyRunning 5 8940, none, [("dev", ⟨5, 8940, "t0"⟩)], [], [],
        none⟩ :=
  start_idempotent_live _ _ 7 true "t1" _ "dev" ⟨5, 8940, "t0"⟩ rfl rfl

/-- Counterexample to C2 as stated: with a registry holding one DEAD session
on port 8940 and every port bindable, the claim's allocator (skip only ports
of currently-alive sessions) would return 8940, but findAvailablePort skips
the dead session's port and returns 8941: the code filters on all registry
entries regardless of liveness. -/
theorem findAvailablePort_liveness_cex :
    findAvailablePort (fun _ => true) [("other", ⟨1, 8940, "t0"⟩)] 8940 =
      some 8941 ∧
    findAvailablePortSpec (fun _ => false) (fun _ => true)
      [("other", ⟨1, 8940, "t0"⟩)] 8940 = some 8940 := by
  constructor <;> rfl

/-- Claim C2 (amended): findAvailablePort returns the first port p ≥ s that
is not held by ANY session recorded in the registry (alive or dead) and is
bindable; it examines exactly the range s to s+999 and returns the error
(none) precisely when no port in that range qualifies, so an occupied
starting port is skipped rather than failing. -/
theorem findAvailablePort_first_free (bindable : Nat → Bool) (reg : Registry)
    (s p : Nat) :
    (findAvailablePort bindable reg s = some p ↔
      (s ≤ p ∧ p < s + 1000 ∧ goodPort (usedPorts reg) bindable p = true ∧
        ∀ q, s ≤ q → q < p → goodPort (usedPorts reg) bindable q = false)) ∧
    (findAvailablePort bindable reg s = none ↔
      ∀ q, s ≤ q → q < s + 1000 →
        goodPort (usedPorts reg) bindable q = false) :=
  ⟨findPortLoop_eq_some _ _ 1000 s p, findPortLoop_eq_none _ _ 1000 s⟩

/-- Witness for C2 (amended): starting port 8940 occupied by an unrelated
process (not bindable) and 8941 held by a registry session: the allocator
lands on 8942, the first good port. -/
theorem findAvailablePort_first_free_witness :
    8940 ≤ 8942 ∧ 8942 < 8940 + 1000 ∧
    goodPort (usedPorts [("a", ⟨2, 8941, "t0"⟩)]) (fun q => q != 8940) 8942 =
      true ∧
    ∀ q, 8940 ≤ q → q < 8942 →
      goodPort (usedPorts [("a", ⟨2, 8941, "t0"⟩)]) (fun q => q != 8940) q =
        false :=
  (findAvailablePort_first_free (fun q => q != 8940) [("a", ⟨2, 8941, "t0"⟩)]
    8940 8942).1.mp rfl

/-- Counterexample to C3 as stated: statusDaemon observes the registry entry
whose process is dead (it reports not-responding on its pid), yet the
persisted registry still contains that stale entry afterwards — the read did
not reap it. -/
theorem stale_not_reaped_by_status_cex :
    (statusDaemon (fun _ => false) false [("s", ⟨1, 8940, "t0"⟩)] "s").2 =
      [("s", ⟨1, 8940, "t0"⟩)] ∧
    (statusDaemon (fun _ => false) false [("s", ⟨1, 8940, "t0"⟩)] "s").1 =
      .notResponding 1 := by
  constructor <;> rfl

/-- Claim C3 (amended): only start reaps a stale entry, and only the entry
under the requested name: observing a dead recorded pid, it deletes that
entry and continues on the cleaned registry. statusDaemon and the sessions
listing return the persisted registry unchanged even when they observe dead
entries. -/
theorem stale_reaped_only_by_start
    (alive bindable : Nat → Bool) (newPid : Nat) (pollOk : Bool)
    (now : String) (reg : Registry) (name : String) (httpOk : Bool) :
    (∀ s, getSession reg name = some s → alive s.pid = false →
      startDaemon alive bindable newPid pollOk now reg name =
        startCore bindable newPid pollOk now (deleteSession reg name) name) ∧
    (statusDaemon alive httpOk reg name).2 = reg ∧
    (listSessionsOp alive reg).2 = reg := by
  refine ⟨fun s hs ha => by simp [startDaemon, hs, ha], ?_, rfl⟩
  unfold statusDaemon
  cases hg : getSession reg name with
  | none => rfl
  | some s =>
    by_cases ha : alive s.pid = true
    · simp only [ha, if_true]
      cases httpOk <;> rfl
    · simp only [Bool.not_eq_true] at ha
      simp [ha]

/-- Witness for C3 (amended) on a one-entry registry with a dead process. -/
theorem stale_reaped_only_by_start_witness :
    startDaemon (fun _ => false) (fun _ => true) 7 true "t1"
        [("s", ⟨1, 8940, "t0"⟩)] "s" =
      startCore (fun _ => true) 7 true "t1"
        (deleteSession [("s", ⟨1, 8940, "t0"⟩)] "s") "s" ∧
    (statusDaemon (fun _ => false) true [("s", ⟨1, 8940, "t0"⟩)] "s").2 =
      [("s", ⟨1, 8940, "t0"⟩)] := by
  have h := stale_reaped_only_by_start (fun _ => false) (fun _ => true) 7
    true "t1" [("s", ⟨1, 8940, "t0"⟩)] "s" true
  exact ⟨h.1 ⟨1, 8940, "t0"⟩ rfl rfl, h.2.1⟩

/-- Claim C4: for every connect outcome — success, or a failed or never
completed bridge connection — the daemon still binds its HTTP listener, and a
GET /status request answers 200 with a body holding exactly the fields
connected, lastError, server, session. -/
theorem status_always_succeeds (oc : ConnectOutcome)
    (serverName sessionName body : String) (bridgeTools : Except String JVal)
    (bridgeCall : JVal → JVal → Except String JVal) :
    (runDaemonInit oc).listenerBound = true ∧
    (handleRequest (runDaemonInit oc) serverName sessionName bridgeTools
        bridgeCall "GET" "/status" body).status = 200 ∧
    jKeys (handleRequest (runDaemonInit oc) serverName sessionName bridgeTools
        bridgeCall "GET" "/status" body).body =
      some ["connected", "lastError", "server", "session"] := by
  cases oc <;> exact ⟨rfl, rfl, rfl⟩

/-- Counterexample to C5 as stated: a POST /call received while the daemon is
not connected, whose body is not valid JSON, is answered with the generic 500
failure, not the 503 unavailable signal — the body is parsed before the
connected check. -/
theorem call_unavailable_cex :
    (handleRequest ⟨false, some "connect failed", true⟩ "srv" "dev"
        (.error "boom") (fun _ _ => .error "boom") "POST" "/call"
        "not json").status = 500 ∧
    unavailableResp.status = 503 ∧ (500 : Nat) ≠ 503 := by
  refine ⟨rfl, rfl, by decide⟩

/-- Claim C5 (amended): while not connected, every GET /tools request and
every POST /call request whose body parses as JSON and destructures get the
identical unavailable response, 503 with error text, whose status code is
distinct from the generic 500 failure; a /call body that fails to parse gets
the generic 500 instead. -/
theorem unavailable_when_disconnected (st : DaemonState)
    (h : st.connected = false) (serverName sessionName body : String)
    (v tool args : JVal) (hb : jsonParse body = some v)
    (hd : destructureCallBody v = some (tool, args))
    (bridgeTools : Except String JVal)
    (bridgeCall : JVal → JVal → Except String JVal) :
    handleRequest st serverName sessionName bridgeTools bridgeCall
        "GET" "/tools" body = unavailableResp ∧
    handleRequest st serverName sessionName bridgeTools bridgeCall
        "POST" "/call" body = unavailableResp ∧
    unavailableResp.status = 503 := by
  refine ⟨?_, ?_, rfl⟩
  · simp [handleRequest, h]
  · simp [handleRequest, h, hb, hd]

/-- Witness for C5 (amended) with a disconnected daemon and a well-formed
call body. -/
theorem unavailable_when_disconnected_witness :
    handleRequest ⟨false, none, true⟩ "srv" "dev" (.error "x")
        (fun _ _ => .error "x") "GET" "/tools"
        "\x7b\"tool\":\"echo\",\"arguments\":\x7b\x7d\x7d" =
      unavailableResp ∧
    handleRequest ⟨false, none, true⟩ "srv" "dev" (.error "x")
        (fun _ _ => .error "x") "POST" "/call"
        "\x7b\"tool\":\"echo\",\"arguments\":\x7b\x7d\x7d" =
      unavailableResp ∧
    unavailableResp.status = 503 :=
  unavailable_when_disconnected ⟨false, none, true⟩ rfl "srv" "dev"
    "\x7b\"tool\":\"echo\",\"arguments\":\x7b\x7d\x7d"
    (.jobj [("tool", .jstr "echo"), ("arguments", .jobj [])])
    (.jstr "echo") (.jobj []) rfl rfl (.error "x") (fun _ _ => .error "x")

/-- Claim C6: stop is idempotent and never raises. An absent entry reports
not-running and changes nothing; a present entry gets one SIGTERM attempt on
its recorded pid and the entry is deleted whether or not the signal could be
delivered; after any stop, the name is gone and a second stop reports
not-running with no signal. -/
theorem stop_idempotent (reg : Registry) (name : String) :
    (getSession reg name = none → stopDaemon reg name = ⟨reg, [], true⟩) ∧
    (∀ s, getSession reg name = some s →
      stopDaemon reg name = ⟨deleteSession reg name, [s.pid], false⟩) ∧
    (getSession (stopDaemon reg name).registry name = none) ∧
    (stopDaemon (stopDaemon reg name).registry name =
      ⟨(stopDaemon reg name).registry, [], true⟩) := by
  cases hg : getSession reg name with
  | none =>
    refine ⟨fun _ => ?_, fun s hs => ?_, ?_, ?_⟩
    · simp [stopDaemon, hg]
    · cases hs
    · simp [stopDaemon, hg]
    · simp [stopDaemon, hg]
  | some s =>
    have hdel : getSession (deleteSession reg name) name = none :=
      getSession_deleteSession_self reg name
    refine ⟨fun hn => ?_, fun s2 hs2 => ?_, ?_, ?_⟩
    · cases hn
    · injection hs2 with he
      subst he
      simp [stopDaemon, hg]
    · simp [stopDaemon, hg, hdel]
    · simp [stopDaemon, hg, hdel]

/-- Witness for C6: stopping a present session deletes it and signals its
pid; stopping on an empty registry reports not-running. -/
theorem stop_idempotent_witness :
    stopDaemon [("dev", ⟨5, 8940, "t0"⟩)] "dev" = ⟨[], [5], false⟩ ∧
    stopDaemon ([] : Registry) "dev" = ⟨[], [], true⟩ := by
  have h1 := (stop_idempotent [("dev", ⟨5, 8940, "t0"⟩)] "dev").2.1
    ⟨5, 8940, "t0"⟩ rfl
  have h2 := (stop_idempotent ([] : Registry) "dev").1 rfl
  exact ⟨by simpa [deleteSession] using h1, h2⟩

/-- Claim C7: start records the new entry right after the spawn, before the
readiness poll; when the single poll fails, it reports start-failed, removes
exactly the just-created entry (every other name reads as before), and sends
no kill signal to the spawned process. -/
theorem start_records_then_rolls_back
    (alive bindable : Nat → Bool) (newPid : Nat) (now : String)
    (reg : Registry) (name : String) (port : Nat)
    (hne : getSession reg name = none)
    (hp : findAvailablePort bindable reg 8940 = some port) :
    (∀ pollOk,
      (startDaemon alive bindable newPid pollOk now reg
          name).registryAfterSpawn =
        some (setSession reg name ⟨newPid, port, now⟩)) ∧
    getSession (setSession reg name ⟨newPid, port, now⟩) name =
      some ⟨newPid, port, now⟩ ∧
    (startDaemon alive bindable newPid false now reg name).outcome =
      .startFailed port ∧
    getSession (startDaemon alive bindable newPid false now reg name).registry
      name = none ∧
    (∀ m, m ≠ name →
      getSession
          (startDaemon alive bindable newPid false now reg name).registry m =
        getSession reg m) ∧
    (startDaemon alive bindable newPid false now reg name).killed = [] ∧
    (startDaemon alive bindable newPid false now reg name).spawned =
      [newPid] := by
  refine ⟨fun pollOk => ?_, getSession_setSession_self reg name _, ?_, ?_,
    ?_, ?_, ?_⟩
  · cases pollOk <;> simp [startDaemon, hne, startCore, hp]
  · simp [startDaemon, hne, startCore, hp]
  · simp [startDaemon, hne, startCore, hp, getSession_deleteSession_self]
  · intro m hm
    simp only [startDaemon, hne, startCore, hp, Bool.false_eq_true, if_false]
    rw [getSession_deleteSession_ne _ _ _ hm,
      getSession_setSession_ne _ _ _ _ hm]
  · simp [startDaemon, hne, startCore, hp]
  · simp [startDaemon, hne, startCore, hp]

/-- Witness for C7 on an empty registry with a failing poll. -/
theorem start_records_then_rolls_back_witness :
    (startDaemon (fun _ => true) (fun _ => true) 7 true "t1" []
        "dev").registryAfterSpawn = some [("dev", ⟨7, 8940, "t1"⟩)] ∧
    (startDaemon (fun _ => true) (fun _ => true) 7 false "t1" []
        "dev").outcome = .startFailed 8940 ∧
    getSession (startDaemon (fun _ => true) (fun _ => true) 7 false "t1" []
        "dev").registry "dev" = none ∧
    (startDaemon (fun _ => true) (fun _ => true) 7 false "t1" []
        "dev").killed = [] := by
  have h := start_records_then_rolls_back (fun _ => true) (fun _ => true) 7
    "t1" ([] : Registry) "dev" 8940 rfl rfl
  exact ⟨by simpa [setSession] using h.1 true, h.2.2.1, h.2.2.2.1,
    h.2.2.2.2.2.1⟩

/-- Claim C8: the materializer round-trips. A binary item with mimeType
image/png is written with a name of the form kind-timestamp.png and its bytes
are the base64 decoding of the data; an unrecognized mimeType is written the
same way with the generic bin extension, with no error. -/
theorem materializer_roundtrip (bs : List Nat) (h : ∀ b ∈ bs, b < 256)
    (outputDir pfx mt : String) (ts : Nat) (hmt : mt ∉ knownMimeTypes) :
    (saveBase64File (base64Encode bs) "image/png" outputDir pfx ts).bytes =
      bs ∧
    (saveBase64File (base64Encode bs) "image/png" outputDir pfx ts).filename =
      pfx ++ "-" ++ toString ts ++ ".png" ∧
    (saveBase64File (base64Encode bs) mt outputDir pfx ts).bytes = bs ∧
    (saveBase64File (base64Encode bs) mt outputDir pfx ts).filename =
      pfx ++ "-" ++ toString ts ++ ".bin" := by
  have hd := base64Decode_encode bs h
  have hext := getMimeExtension_unknown mt hmt
  refine ⟨hd, ?_, hd, ?_⟩
  · show pfx ++ "-" ++ toString ts ++ "." ++ getMimeExtension "image/png" =
      pfx ++ "-" ++ toString ts ++ ".png"
    rw [str_append_dot]
    rfl
  · show pfx ++ "-" ++ toString ts ++ "." ++ getMimeExtension mt =
      pfx ++ "-" ++ toString ts ++ ".bin"
    rw [hext, str_append_dot]
    rfl

/-- Witness for C8 on the four PNG magic bytes and an unknown MIME type. -/
theorem materializer_roundtrip_witness :
    (saveBase64File (base64Encode [137, 80, 78, 71]) "image/png" "out"
      "image" 1712).bytes = [137, 80, 78, 71] ∧
    (saveBase64File (base64Encode [137, 80, 78, 71]) "image/png" "out"
      "image" 1712).filename = "image-1712.png" ∧
    (saveBase64File (base64Encode [137, 80, 78, 71]) "application/x-custom"
      "out" "image" 1712).filename = "image-1712.bin" := by
  have h := materializer_roundtrip [137, 80, 78, 71] (by decide) "out"
    "image" "application/x-custom" 1712 (by decide)
  refine ⟨h.1, ?_, ?_⟩
  · rw [h.2.1]; rfl
  · rw [h.2.2.2]; rfl

/-- Claim C9: loading the registry is total. A missing sessions.json or one
whose content JSON.parse rejects both yield the empty registry object, so
every command sees a corrupt file exactly as no sessions. -/
theorem loadSessions_total (file : Option String)
    (h : file = none ∨ ∃ s, file = some s ∧ jsonParse s = none) :
    loadSessions file = .jobj [] := by
  rcases h with rfl | ⟨s, rfl, hp⟩
  · rfl
  · simp [loadSessions, hp]

/-- Witness for C9: the absent file, the empty file and a corrupt file all
load as the empty registry. -/
theorem loadSessions_total_witness :
    loadSessions (some "") = .jobj [] ∧
    loadSessions (some "corrupt \x7b") = .jobj [] ∧
    loadSessions none = .jobj [] :=
  ⟨loadSessions_total _ (Or.inr ⟨"", rfl, rfl⟩),
   loadSessions_total _ (Or.inr ⟨"corrupt \x7b", rfl, rfl⟩),
   loadSessions_total _ (Or.inl rfl)⟩

/-- Claim C10: a POST /call whose body is not valid JSON is answered with the
generic 500 failure carrying an error field, never with the unavailable
response, for every connection state — the body is parsed before the
connected check. -/
theorem call_parse_error_generic (st : DaemonState)
    (serverName sessionName body : String) (bridgeTools : Except String JVal)
    (bridgeCall : JVal → JVal → Except String JVal)
    (hb : jsonParse body = none) :
    (handleRequest st serverName sessionName bridgeTools bridgeCall
        "POST" "/call" body).status = 500 ∧
    (∃ m, (handleRequest st serverName sessionName bridgeTools bridgeCall
        "POST" "/call" body).body = .jobj [("error", .jstr m)]) ∧
    handleRequest st serverName sessionName bridgeTools bridgeCall
        "POST" "/call" body ≠ unavailableResp := by
  refine ⟨?_, ⟨"Unexpected token in JSON", ?_⟩, ?_⟩
  · simp [handleRequest, hb]
  · simp [handleRequest, hb]
  · intro he
    have := congrArg Response.status he
    simp [handleRequest, hb, unavailableResp] at this

/-- Witness for C10 with a disconnected daemon and an unparseable body. -/
theorem call_parse_error_generic_witness :
    (handleRequest ⟨false, some "connect failed", true⟩ "srv" "dev"
        (.error "x") (fun _ _ => .error "x") "POST" "/call"
        "not json").status = 500 ∧
    handleRequest ⟨false, some "connect failed", true⟩ "srv" "dev"
        (.error "x") (fun _ _ => .error "x") "POST" "/call" "not json" ≠
      unavailableResp := by
  have h := call_parse_error_generic ⟨false, some "connect failed", true⟩
    "srv" "dev" "not json" (.error "x") (fun _ _ => .error "x") rfl
  exact ⟨h.1, h.2.2⟩

end McpSkillClient
